import Mathlib

/-!
Verification development for the aifx trading-analysis application.

The repository is a small Express/WebSocket trading app kept as several
near-duplicate revisions of two files (`server.js` and `public/script.js`).
This file shallowly embeds the algorithmic parts those revisions share or
disagree on: the timeframe-to-seconds mapping, the indicator engine and its
alignment onto the candle timeline, the candle-fetch post-processing, the
brace-heuristic extraction of a JSON object from LLM text, and the
`/api/analyze` orchestration.  JavaScript strings are embedded as `List Char`,
JavaScript numbers as `ℚ` (with `Int`/`Nat` where the code only ever holds
integers), absent values (`undefined`/`null`/`NaN`) as `Option`, and thrown
exceptions as `Except` errors.
-/

namespace Aifx

/-! ## JavaScript string primitives -/

/-- Model of JS `String.prototype.indexOf` for a single character:
index of the first occurrence, `-1` when absent. -/
def jsIndexOf (s : List Char) (c : Char) : Int :=
  match s.findIdx? (· = c) with
  | some i => (i : Int)
  | none => -1

/-- Model of JS `String.prototype.lastIndexOf` for a single character:
index of the last occurrence, `-1` when absent. -/
def jsLastIndexOf (s : List Char) (c : Char) : Int :=
  match s.reverse.findIdx? (· = c) with
  | some k => (s.length : Int) - 1 - k
  | none => -1

/-- Model of JS `String.prototype.substring`: both arguments are clamped to
`[0, length]` and swapped when out of order. -/
def jsSubstring (s : List Char) (a b : Int) : List Char :=
  let len : Int := (s.length : Int)
  let a' := ((min (max a 0) len).toNat)
  let b' := ((min (max b 0) len).toNat)
  (s.drop (min a' b')).take (max a' b' - min a' b')

/-- Numeric value of a digit string (most significant digit first). -/
def digitsVal (ds : List Char) : Nat :=
  ds.foldl (fun a c => 10 * a + (c.toNat - 48)) 0

/-- Model of JS `parseInt` restricted to the inputs this app feeds it
(possibly empty strings of decimal digits, possibly followed by other
characters): the value of the leading digit run, or `none` for `NaN`
when the string does not start with a digit. -/
def parseIntLeading (s : List Char) : Option Nat :=
  let ds := s.takeWhile (·.isDigit)
  if ds.isEmpty then none else some (digitsVal ds)

/-! ## Timeframe mapping (`getTimeframeInSeconds`, identical in all three
server revisions) -/

/-- Embedding of `getTimeframeInSeconds` (`server.js:30-39`,
`unnamed/part_000:37-46`, `unnamed/part_001:25-34`):
`unit` is the lower-cased last character (`slice(-1)`), `value` is
`parseInt` of the rest (`slice(0,-1)`); `m`/`h`/`d` scale `value`,
anything else returns 60.  The result is `none` exactly when the JS code
returns `NaN` (a recognised unit with a non-numeric prefix). -/
def getTimeframeInSeconds (tf : List Char) : Option Nat :=
  let unit := tf.getLast?.map Char.toLower
  let value := parseIntLeading tf.dropLast
  if unit = some 'm' then value.map (· * 60)
  else if unit = some 'h' then value.map (· * 3600)
  else if unit = some 'd' then value.map (· * (24 * 3600))
  else some 60

/-! ## Candles and the indicator engine -/

/-- One OHLC candle as the backend holds it after numeric parsing
(`epoch` seconds plus four prices).  `open_` embeds the JS field `open`,
which is a Lean keyword. -/
structure Candle where
  epoch : Int
  open_ : ℚ
  high : ℚ
  low : ℚ
  close : ℚ
  deriving DecidableEq, Repr

/-- One Bollinger-band entry as the `technicalindicators` library emits it. -/
structure BollEntry where
  middle : ℚ
  upper : ℚ
  lower : ℚ
  deriving DecidableEq, Repr

/-- One MACD entry; `signal`/`histogram` are absent for the entries
emitted before the signal line has warmed up. -/
structure MacdEntry where
  MACD : ℚ
  signal : Option ℚ
  histogram : Option ℚ
  deriving DecidableEq, Repr

/-- Model of `SMA.calculate` from the external `technicalindicators`
library: the arithmetic mean over each window of `period` consecutive
values, one output per window, so the series is empty when fewer than
`period` values exist.  The library is called with `period ≥ 1` only. -/
def smaSeries (period : Nat) (values : List ℚ) : List ℚ :=
  (List.range (values.length + 1 - period)).map
    (fun i => ((values.drop i).take period).sum / (period : ℚ))

/-- Model of `BollingerBands.calculate` from the external library:
middle band is the rolling mean, upper/lower bands sit `stdDev` rolling
population standard deviations away.  `Rat.sqrt` stands in for the
library's floating-point square root; no theorem in this file depends on
the band values, only on the series length. -/
def bollSeries (period : Nat) (stdDev : ℚ) (values : List ℚ) : List BollEntry :=
  (List.range (values.length + 1 - period)).map (fun i =>
    let w := (values.drop i).take period
    let m := w.sum / (period : ℚ)
    let v := (w.map (fun x => (x - m) ^ 2)).sum / (period : ℚ)
    let sd := Rat.sqrt v
    ⟨m, m + stdDev * sd, m - stdDev * sd⟩)

/-- Model of the external library's exponential moving average: seeded by
the mean of the first `period` values, then smoothed with factor
`2/(period+1)`; empty when fewer than `period` values exist. -/
def emaSeries (period : Nat) (values : List ℚ) : List ℚ :=
  if values.length < period then []
  else
    let seed := (values.take period).sum / (period : ℚ)
    let k : ℚ := 2 / ((period : ℚ) + 1)
    ((values.drop period).foldl
      (fun (acc : List ℚ × ℚ) v =>
        let e := (v - acc.2) * k + acc.2
        (acc.1 ++ [e], e))
      ([seed], seed)).1

/-- Model of `RSI.calculate` from the external library (Wilder smoothing
of average gains and losses over the period); empty when fewer than
`period + 1` values (that is, fewer than `period` price changes) exist.
An all-loss-free window yields 100, mirroring the float quotient by zero. -/
def rsiSeries (period : Nat) (values : List ℚ) : List ℚ :=
  let changes := ((values.zip (values.drop 1)).map (fun p => p.2 - p.1))
  if changes.length < period then []
  else
    let first := changes.take period
    let ag0 := (first.map (fun c => max c 0)).sum / (period : ℚ)
    let al0 := (first.map (fun c => max (-c) 0)).sum / (period : ℚ)
    let rsiOf := fun (ag al : ℚ) =>
      if al = 0 then (100 : ℚ) else 100 - 100 / (1 + ag / al)
    ((changes.drop period).foldl
      (fun (acc : List ℚ × ℚ × ℚ) c =>
        let ag := (acc.2.1 * ((period : ℚ) - 1) + max c 0) / (period : ℚ)
        let al := (acc.2.2 * ((period : ℚ) - 1) + max (-c) 0) / (period : ℚ)
        (acc.1 ++ [rsiOf ag al], ag, al))
      ([rsiOf ag0 al0], ag0, al0)).1

/-- Model of `MACD.calculate` from the external library with EMA
oscillator and EMA signal: the MACD line is fast EMA minus slow EMA where
both exist, the signal line is an EMA of the MACD line, and entries
emitted before the signal warm-up carry no signal/histogram.  Empty when
the slow EMA has no output. -/
def macdSeries (fast slow signalPeriod : Nat) (values : List ℚ) :
    List MacdEntry :=
  let emaFast := emaSeries fast values
  let emaSlow := emaSeries slow values
  let line := ((emaFast.drop (emaFast.length - emaSlow.length)).zip emaSlow).map
    (fun p => p.1 - p.2)
  let sig := emaSeries signalPeriod line
  line.mapIdx (fun i m =>
    let off := line.length - sig.length
    let s? := if off ≤ i then sig[i - off]? else none
    ⟨m, s?, s?.map (fun s => m - s)⟩)

/-- Indicator bundle computed by the `server.js` revision. -/
structure ServerIndicators where
  sma50 : List ℚ
  rsi : List ℚ
  macd : List MacdEntry
  bollingerBands : List BollEntry
  deriving DecidableEq, Repr

/-- Embedding of `calculateIndicators` (`server.js:46-69`): maps the
closes out of the candles and delegates each indicator to the library
(the mapped highs/lows of the source are never used). -/
def calculateIndicators (candles : List Candle) : ServerIndicators :=
  let closePrices := candles.map (·.close)
  ⟨smaSeries 50 closePrices, rsiSeries 14 closePrices,
    macdSeries 12 26 9 closePrices, bollSeries 20 2 closePrices⟩

/-- Indicator bundle computed by the `unnamed/part_000` revision. -/
structure PartIndicators where
  sma50 : List ℚ
  bollingerBands : List BollEntry
  deriving DecidableEq, Repr

/-- Embedding of `calculateIndicators` (`unnamed/part_000:53-72`): returns
two empty series outright when fewer than 50 closes exist, otherwise the
SMA(50) and, when at least 20 closes exist, the Bollinger bands. -/
def calculateIndicators000 (candles : List Candle) : PartIndicators :=
  let closes := candles.map (·.close)
  if closes.length < 50 then ⟨[], []⟩
  else
    let sma50 := smaSeries 50 closes
    let bollingerBands :=
      if closes.length ≥ 20 then bollSeries 20 2 closes else []
    ⟨sma50, bollingerBands⟩

/-- A candle enriched with the explicit `sma` marker of
`unnamed/part_001`'s `calculateSMA` (`null` embeds as `none`). -/
structure CandleSMA where
  epoch : Int
  open_ : ℚ
  high : ℚ
  low : ℚ
  close : ℚ
  sma : Option ℚ
  deriving DecidableEq, Repr

/-- Rounding to four decimal places, modelling
`parseFloat(x.toFixed(4))` on the positive prices this app handles
(round half up on the exact rational value). -/
def round4 (q : ℚ) : ℚ := ((Int.floor (q * 10000 + 1 / 2) : Int) : ℚ) / 10000

/-- Embedding of `calculateSMA` (`unnamed/part_001:43-51`): one output
per input candle; from index `period - 1` on, the `sma` field is the
rounded mean of the closes in `arr.slice(index - period + 1, index + 1)`,
and earlier entries carry the explicit `null` marker.  The app calls it
with `period = 20` only. -/
def calculateSMA (candles : List Candle) (period : Nat) : List CandleSMA :=
  candles.mapIdx (fun index c =>
    if period - 1 ≤ index then
      let w := (candles.drop (index + 1 - period)).take
        ((index + 1) - (index + 1 - period))
      let sum := (w.map (·.close)).sum
      ⟨c.epoch, c.open_, c.high, c.low, c.close,
        some (round4 (sum / (period : ℚ)))⟩
    else ⟨c.epoch, c.open_, c.high, c.low, c.close, none⟩)

/-- Concrete three-candle fixture for the `calculateSMA` witness. -/
def c8Candles : List Candle :=
  [⟨1, 1, 2, 0, 1⟩, ⟨2, 1, 3, 1, 2⟩, ⟨3, 2, 5, 2, 4⟩]

/-! ## Candle fetching -/

/-- Embedding of the candle post-processing of `getCandleData`
(`unnamed/part_000:97-112`): each wire candle is numerically parsed
(modelled as field repacking, the wire fields being embedded as already
numeric) and the batch is sorted ascending by `epoch`
(`.sort((a, b) => a.epoch - b.epoch)`, modelled by a stable sort on
`epoch`). -/
def getCandleDataCandles (raw : List Candle) : List Candle :=
  List.insertionSort (fun a b => a.epoch ≤ b.epoch)
    (raw.map (fun c => ⟨c.epoch, c.open_, c.high, c.low, c.close⟩))

/-- Embedding of the candle resolution of `getMarketData`
(`server.js:90-106`): a nonempty candle batch is resolved exactly as
delivered on the wire, with no sorting; an empty batch rejects. -/
def getMarketDataCandles (candles : List Candle) :
    Except (List Char) (List Candle) :=
  if candles.length > 0 then .ok candles
  else .error "No candle data returned".data

/-- Out-of-order two-candle wire batch used by the C4 counterexample. -/
def c4Wire : List Candle := [⟨2, 1, 1, 1, 1⟩, ⟨1, 1, 1, 1, 1⟩]

/-! ## Client chart overlays -/

/-- A candle as serialised to the client in `marketData.candles`
(`time` is the epoch, the four prices are unchanged). -/
structure ChartCandle where
  time : Int
  open_ : ℚ
  high : ℚ
  low : ℚ
  close : ℚ
  deriving DecidableEq, Repr

/-- Embedding of the SMA overlay pairing of `public/script.js:199-209`
(first client revision): candle index `index` is paired with the same
raw index of the SMA series
(`value: marketData.indicators.sma50[index]`), and pairs whose value is
not a number are filtered out. -/
def smaOverlayRawIndex (candles : List ChartCandle) (sma50 : List ℚ) :
    List (Int × ℚ) :=
  (candles.mapIdx (fun index candle => (candle.time, sma50[index]?))).filterMap
    (fun d => d.2.map (fun v => (d.1, v)))

/-- Embedding of the SMA overlay pairing of `public/script.js:434-443`
(second client revision): series index `index` is paired with the candle
at `candles.length - sma50.length + index`.  The out-of-range access
that would throw in JS (possible only when the series outgrows the
candle list) is modelled by a junk default time. -/
def smaOverlayTailAligned (candles : List ChartCandle) (sma50 : List ℚ) :
    List (Int × ℚ) :=
  sma50.mapIdx (fun index sma =>
    (((candles[candles.length - sma50.length + index]?).map (·.time)).getD 0,
      sma))

/-- Two-candle, one-value fixture for the C1 misalignment evaluation. -/
def c1Candles : List ChartCandle := [⟨10, 1, 1, 1, 1⟩, ⟨20, 1, 1, 1, 1⟩]

/-- The one-entry SMA series of the C1 fixture. -/
def c1Sma : List ℚ := [5]

/-! ## JSON values and a model of `JSON.parse` -/

/-- The opening curly brace character. -/
def braceOpen : Char := '\x7b'

/-- The closing curly brace character. -/
def braceClose : Char := '\x7d'

/-- JSON value tree; strings are embedded as character lists. -/
inductive Json where
  | null : Json
  | boolean : Bool → Json
  | num : ℚ → Json
  | str : List Char → Json
  | arr : List Json → Json
  | obj : List (List Char × Json) → Json

/-- Key lookup on a JSON object; `none` on non-objects and absent keys. -/
def Json.getKey? (j : Json) (k : List Char) : Option Json :=
  match j with
  | .obj members => members.lookup k
  | _ => none

/-- JSON insignificant whitespace. -/
def isJsonWs (c : Char) : Bool :=
  c == ' ' || c == '\n' || c == '\t' || c == '\r'

/-- Scan a JSON string body after its opening quote, decoding the simple
escapes; returns the decoded characters and the input past the closing
quote.  Part of the model of the JS built-in `JSON.parse`. -/
def scanStringBody : List Char → Option (List Char × List Char)
  | [] => none
  | '"' :: rest => some ([], rest)
  | '\\' :: e :: rest =>
    let d? : Option Char :=
      if e == '"' then some '"'
      else if e == '\\' then some '\\'
      else if e == '/' then some '/'
      else if e == 'n' then some '\n'
      else if e == 't' then some '\t'
      else if e == 'r' then some '\r'
      else none
    match d? with
    | none => none
    | some d => (scanStringBody rest).map (fun p => (d :: p.1, p.2))
  | '\\' :: [] => none
  | c :: rest => (scanStringBody rest).map (fun p => (c :: p.1, p.2))

/-- Scan an exponent suffix: optional sign, then digits. -/
def scanExpPart (s : List Char) : Option (Bool × Nat × List Char) :=
  let (eneg, s1) : Bool × List Char :=
    match s with
    | '+' :: rest => (false, rest)
    | '-' :: rest => (true, rest)
    | _ => (false, s)
  let ed := s1.takeWhile (·.isDigit)
  if ed.isEmpty then none
  else some (eneg, digitsVal ed, s1.dropWhile (·.isDigit))

/-- Scan a JSON number (sign, integer part, optional fraction and
exponent) as an exact rational, assembled with integer arithmetic and
one `mkRat`. -/
def scanNumber (s : List Char) : Option (ℚ × List Char) :=
  let (neg, s1) : Bool × List Char :=
    match s with
    | '-' :: rest => (true, rest)
    | _ => (false, s)
  let ds := s1.takeWhile (·.isDigit)
  let s2 := s1.dropWhile (·.isDigit)
  if ds.isEmpty then none
  else
    let fracStep : Option (List Char × List Char) :=
      match s2 with
      | '.' :: rest =>
        let fd := rest.takeWhile (·.isDigit)
        if fd.isEmpty then none else some (fd, rest.dropWhile (·.isDigit))
      | _ => some ([], s2)
    match fracStep with
    | none => none
    | some (fd, s3) =>
      let expStep : Option (Bool × Nat × List Char) :=
        match s3 with
        | 'e' :: rest => scanExpPart rest
        | 'E' :: rest => scanExpPart rest
        | _ => some (false, 0, s3)
      match expStep with
      | none => none
      | some (eneg, e, s4) =>
        let mant : Nat := digitsVal ds * 10 ^ fd.length + digitsVal fd
        let num : Int := if neg then -(mant : Int) else (mant : Int)
        let q : ℚ :=
          if eneg then mkRat num (10 ^ (fd.length + e))
          else mkRat (num * (10 : Int) ^ e) (10 ^ fd.length)
        some (q, s4)

/-- Drop an expected literal tail (`rue`, `alse`, `ull`). -/
def dropLit (lit s : List Char) : Option (List Char) :=
  if lit.isPrefixOf s then some (s.drop lit.length) else none

mutual

/-- Fuel-indexed model of the JS built-in `JSON.parse` for one value:
returns the parsed value and the remaining input, or `none` on
malformed input (modelling a thrown `SyntaxError`). -/
def parseJsonVal : Nat → List Char → Option (Json × List Char)
  | 0, _ => none
  | fuel + 1, s =>
    match s.dropWhile isJsonWs with
    | [] => none
    | c :: rest =>
      if c == '"' then
        (scanStringBody rest).map (fun p => (Json.str p.1, p.2))
      else if c == 't' then
        (dropLit "rue".data rest).map (fun r => (Json.boolean true, r))
      else if c == 'f' then
        (dropLit "alse".data rest).map (fun r => (Json.boolean false, r))
      else if c == 'n' then
        (dropLit "ull".data rest).map (fun r => (Json.null, r))
      else if c == braceOpen then
        match rest.dropWhile isJsonWs with
        | d :: rest1 =>
          if d == braceClose then some (Json.obj [], rest1)
          else (parseMembers fuel (d :: rest1)).map
            (fun p => (Json.obj p.1, p.2))
        | [] => none
      else if c == '[' then
        match rest.dropWhile isJsonWs with
        | d :: rest1 =>
          if d == ']' then some (Json.arr [], rest1)
          else (parseElems fuel (d :: rest1)).map
            (fun p => (Json.arr p.1, p.2))
        | [] => none
      else (scanNumber (c :: rest)).map (fun p => (Json.num p.1, p.2))
termination_by structural fuel => fuel

/-- Fuel-indexed scan of the members of a nonempty JSON object, starting
at the first key, through the closing brace. -/
def parseMembers : Nat → List Char →
    Option (List (List Char × Json) × List Char)
  | 0, _ => none
  | fuel + 1, s =>
    match s.dropWhile isJsonWs with
    | '"' :: rest =>
      match scanStringBody rest with
      | none => none
      | some (key, s1) =>
        match s1.dropWhile isJsonWs with
        | ':' :: s2 =>
          match parseJsonVal fuel s2 with
          | none => none
          | some (v, s3) =>
            match s3.dropWhile isJsonWs with
            | ',' :: s4 =>
              (parseMembers fuel s4).map (fun p => ((key, v) :: p.1, p.2))
            | d :: s4 => if d == braceClose then some ([(key, v)], s4) else none
            | [] => none
        | _ => none
    | _ => none
termination_by structural fuel => fuel

/-- Fuel-indexed scan of the elements of a nonempty JSON array, through
the closing bracket. -/
def parseElems : Nat → List Char → Option (List Json × List Char)
  | 0, _ => none
  | fuel + 1, s =>
    match parseJsonVal fuel s with
    | none => none
    | some (v, s1) =>
      match s1.dropWhile isJsonWs with
      | ',' :: s2 => (parseElems fuel s2).map (fun p => (v :: p.1, p.2))
      | d :: s2 => if d == ']' then some ([v], s2) else none
      | [] => none
termination_by structural fuel => fuel

end

/-- Model of the JS built-in `JSON.parse`: one value, then only
whitespace may remain.  `none` models a thrown `SyntaxError`. -/
def jsonParse (s : List Char) : Option Json :=
  match parseJsonVal (s.length + 1) s with
  | some (v, rest) => if (rest.dropWhile isJsonWs).isEmpty then some v else none
  | none => none

/-! ## Response extraction -/

/-- The extraction failure modes distinguished by the source
(`unnamed/part_000:183-193`, `unnamed/part_001:144-163`). -/
inductive ExtractErr where
  | noRegion
  | parseFailed
  deriving DecidableEq, Repr

/-- Embedding of the JSON-candidate selection of the `/api/analyze`
handler (`unnamed/part_001:147-155`, identically `unnamed/part_000`,
and `server.js:191-193` minus the `-1` guard): the substring from the
first `{` to the last `}` inclusive, `none` when either brace is
absent. -/
def extractCandidate (s : List Char) : Option (List Char) :=
  let jsonStartIndex := jsIndexOf s braceOpen
  let jsonEndIndex := jsLastIndexOf s braceClose
  if jsonStartIndex = -1 ∨ jsonEndIndex = -1 then none
  else some (jsSubstring s jsonStartIndex (jsonEndIndex + 1))

/-- Embedding of the extraction step of the `/api/analyze` handler
(`unnamed/part_001:144-163`): candidate selection, then `JSON.parse`,
with the two failure modes reported distinctly.  The parsed value is
used as the analysis with no further validation. -/
def extractAnalysis (s : List Char) : Except ExtractErr Json :=
  match extractCandidate s with
  | none => .error .noRegion
  | some cand =>
    match jsonParse cand with
    | some v => .ok v
    | none => .error .parseFailed

/-- Index of the first occurrence of `pat` as a contiguous substring. -/
def findSub (pat : List Char) : List Char → Option Nat
  | [] => if pat.isEmpty then some 0 else none
  | c :: rest =>
    if pat.isPrefixOf (c :: rest) then some 0
    else (findSub pat rest).map (· + 1)

/-- Spec-side definition, for the C2 refinement check only (the source
has no counterpart): the interior of the first markdown-fenced code
block, skipping an optional `json` tag after the opening fence and one
newline after it, per the spec's step 1 of the extraction fallback
chain. -/
def specFencedInterior (s : List Char) : Option (List Char) :=
  match findSub "```".data s with
  | none => none
  | some i =>
    let afterFence := s.drop (i + 3)
    let afterTag :=
      if "json".data.isPrefixOf afterFence then afterFence.drop 4
      else afterFence
    let body :=
      match afterTag with
      | '\n' :: rest => rest
      | _ => afterTag
    match findSub "```".data body with
    | none => none
    | some j => some (body.take j)

/-- LLM reply used by the C2 counterexample: a fenced `json` block
followed by prose that contains further braces. -/
def c2Text : List Char :=
  ("answer:\n```json\n\x7ba: 1\x7d\n```\nmore \x7bb: 2\x7d end").data

/-- LLM reply whose brace region is a JSON object that parses but lacks
`entryPoint` and `takeProfit`, used by the C3 counterexample. -/
def c3Text : List Char := ("\x7b\"stopLoss\":1.0\x7d").data

/-- LLM reply with no braces at all, used by the C3 witness. -/
def c3NoRegionText : List Char := ("no json here").data

/-- LLM reply whose brace region has unquoted keys and so fails to
parse, used by the C3 witness. -/
def c3MalformedText : List Char := ("\x7bentryPoint: 1.1, stopLoss: 1.0\x7d").data

/-! ## Economic events and the analyze orchestration (`server.js`) -/

/-- A raw Finnhub economic-calendar entry (the fields the code reads). -/
structure EconEvent where
  event : List Char
  country : List Char
  time : List Char
  impact : List Char
  deriving DecidableEq, Repr

/-- The trimmed event shape the handler keeps. -/
structure EconEventOut where
  event : List Char
  country : List Char
  time : List Char
  deriving DecidableEq, Repr

/-- The major-economy country codes of `server.js:123`. -/
def majorEconomies : List (List Char) :=
  ["US".data, "EU".data, "GB".data, "JP".data, "CN".data, "DE".data]

/-- Embedding of `getEconomicEvents` (`server.js:112-131`): the Finnhub
callback outcome is the input; on error the promise resolves with the
empty list (it never rejects), on success the high-impact events of
major economies are kept, trimmed to three fields. -/
def getEconomicEvents (result : Except (List Char) (List EconEvent)) :
    List EconEventOut :=
  match result with
  | .error _ => []
  | .ok data =>
    (data.filter
      (fun e => e.impact == "high".data && majorEconomies.contains e.country)).map
      (fun e => ⟨e.event, e.country, e.time⟩)

/-- A prompt candle `{o, h, l, c, t}` as serialised into the prompt
(`server.js:146`). -/
structure RecentCandle where
  o : ℚ
  h : ℚ
  l : ℚ
  c : ℚ
  t : Int
  deriving DecidableEq, Repr

/-- Model of JS `arr.slice(-n)` for `n ≥ 1`: the last `n` elements (the
whole list when shorter). -/
def jsSliceLast (n : Nat) (l : List α) : List α := l.drop (l.length - n)

/-- The variable parts of the prompt string of `server.js:154-173`; the
surrounding instruction template is constant text, so the prompt is
modelled by the data interpolated into it. -/
structure PromptData where
  asset : List Char
  timeframe : List Char
  recentCandles : List RecentCandle
  sma50 : List ℚ
  rsi : List ℚ
  macd : List MacdEntry
  bollingerBands : List BollEntry
  upcomingEvents : List EconEventOut
  deriving DecidableEq, Repr

/-- Embedding of the prompt-data assembly (`server.js:146-173`): the last
50 candles shortened to `o/h/l/c/t` and the last 50 entries of each
indicator series. -/
def buildPromptData (asset timeframe : List Char) (candles : List Candle)
    (indicators : ServerIndicators) (upcomingEvents : List EconEventOut) :
    PromptData :=
  ⟨asset, timeframe,
    (jsSliceLast 50 candles).map
      (fun c => ⟨c.open_, c.high, c.low, c.close, c.epoch⟩),
    jsSliceLast 50 indicators.sma50,
    jsSliceLast 50 indicators.rsi,
    jsSliceLast 50 indicators.macd,
    jsSliceLast 50 indicators.bollingerBands,
    upcomingEvents⟩

/-- The `marketData` object of the response (`server.js:200-206`). -/
structure MarketDataOut where
  candles : List ChartCandle
  sma50 : List ℚ
  bollingerBands : List BollEntry

/-- The `/api/analyze` success response body (`server.js:198-207`). -/
structure AnalyzeOut where
  analysis : Json
  marketData : MarketDataOut

/-- Embedding of the `/api/analyze` handler pipeline of
`server.js:141-207` after validation, with the two external calls
(candle fetch, completion) given as inputs: indicators are computed, the
events resolved (empty on upstream failure), the prompt data assembled,
the reply text mined for its first-`{`-to-last-`}` region and parsed,
and the response assembled from the parsed analysis plus the full candle
list and the two charted indicator series.  This revision has no `-1`
guard before `substring`, so a brace-free reply yields an empty
candidate whose `JSON.parse` failure is the thrown `SyntaxError`,
embedded as `.error .parseFailed`. -/
def analyzeHandler (asset timeframe : List Char) (candles : List Candle)
    (eventsResult : Except (List Char) (List EconEvent))
    (responseText : List Char) : Except ExtractErr AnalyzeOut :=
  let indicators := calculateIndicators candles
  let upcomingEvents := getEconomicEvents eventsResult
  let _prompt := buildPromptData asset timeframe candles indicators
    upcomingEvents
  let jsonString := jsSubstring responseText
    (jsIndexOf responseText braceOpen)
    (jsLastIndexOf responseText braceClose + 1)
  match jsonParse jsonString with
  | none => .error .parseFailed
  | some analysis =>
    .ok ⟨analysis,
      ⟨candles.map (fun c => ⟨c.epoch, c.open_, c.high, c.low, c.close⟩),
        indicators.sma50, indicators.bollingerBands⟩⟩

/-- How the opening lines of an `/api/analyze` handler revision end:
with a thrown exception, a 400 rejection, or by proceeding into the
pipeline. -/
inductive HandlerStart where
  | thrown (msg : List Char)
  | badRequest
  | proceeding (timeframeSeconds : Option Nat)
  deriving DecidableEq, Repr

/-- Embedding of the opening lines of the `/api/analyze` handler of
`unnamed/part_000:126-133`: `getTimeframeInSeconds(timeframe)` is
evaluated before the missing-field guard, so an absent `timeframe`
throws a `TypeError` out of `undefined.slice` instead of reaching the
`400` response; with `timeframe` present, a falsy (missing or empty)
`asset` or an empty `timeframe` is rejected with `400`.  A missing body
field destructures to `undefined`, embedded as `none`. -/
def analyzeStart000 (asset timeframe : Option (List Char)) : HandlerStart :=
  match timeframe with
  | none => .thrown ("TypeError: cannot read slice of undefined".data)
  | some tf =>
    let timeframeSeconds := getTimeframeInSeconds tf
    if asset = none ∨ asset = some [] ∨ tf = [] then .badRequest
    else .proceeding timeframeSeconds

/-- Embedding of the opening lines of the `/api/analyze` handler of
`server.js:135-141` (and identically `unnamed/part_001:100-106`): the
missing-field guard runs first, so any falsy `asset` or `timeframe`
yields the `400` response before anything else. -/
def analyzeStartServer (asset timeframe : Option (List Char)) :
    HandlerStart :=
  if asset = none ∨ asset = some [] ∨ timeframe = none ∨ timeframe = some []
    then .badRequest
  else .proceeding (timeframe.bind (fun tf => getTimeframeInSeconds tf))

/-- Two-candle fixture for the C10 witness. -/
def c10Candles : List Candle := [⟨1, 1, 2, 0, 1⟩, ⟨2, 1, 3, 1, 2⟩]

/-- A well-formed completion reply for the C10 witness. -/
def c10Reply : List Char :=
  ("\x7b\"entryPoint\":1,\"stopLoss\":2,\"takeProfit\":3\x7d").data

/-- The response the handler assembles in the C10 witness run. -/
def c10Resp : AnalyzeOut :=
  ⟨Json.obj [("entryPoint".data, Json.num 1), ("stopLoss".data, Json.num 2),
      ("takeProfit".data, Json.num 3)],
    ⟨[⟨1, 1, 2, 0, 1⟩, ⟨2, 1, 3, 1, 2⟩], [], []⟩⟩

/-! ## Theorems -/

instance : IsTotal Candle (fun a b => a.epoch ≤ b.epoch) :=
  ⟨fun a b => Int.le_total a.epoch b.epoch⟩

instance : IsTrans Candle (fun a b => a.epoch ≤ b.epoch) :=
  ⟨fun _ _ _ h1 h2 => le_trans h1 h2⟩

/-- Helper: `parseIntLeading` on a nonempty all-digit string is its value. -/
theorem parseIntLeading_digits (ds : List Char) (hne : ds ≠ [])
    (hdig : ∀ c ∈ ds, c.isDigit) : parseIntLeading ds = some (digitsVal ds) := by
  unfold parseIntLeading
  have htw : ds.takeWhile (·.isDigit) = ds := List.takeWhile_eq_self_iff.mpr hdig
  rw [htw]
  simp [List.isEmpty_iff, hne]

/-- C6: for a timeframe label made of one or more digits followed by a single
unit letter, `getTimeframeInSeconds` returns the digit value times 60 for
unit `m`, times 3600 for `h`, times 86400 for `d` (unit case-insensitive),
and returns 60 for any other unit character; an empty label (no suffix at
all) also yields 60 rather than an error. -/
theorem c6_timeframe_seconds (ds : List Char) (u : Char)
    (hne : ds ≠ []) (hdig : ∀ c ∈ ds, c.isDigit) :
    (u.toLower = 'm' →
      getTimeframeInSeconds (ds ++ [u]) = some (digitsVal ds * 60)) ∧
    (u.toLower = 'h' →
      getTimeframeInSeconds (ds ++ [u]) = some (digitsVal ds * 3600)) ∧
    (u.toLower = 'd' →
      getTimeframeInSeconds (ds ++ [u]) = some (digitsVal ds * 86400)) ∧
    (u.toLower ≠ 'm' → u.toLower ≠ 'h' → u.toLower ≠ 'd' →
      getTimeframeInSeconds (ds ++ [u]) = some 60) ∧
    getTimeframeInSeconds [] = some 60 := by
  have hlast : (ds ++ [u]).getLast? = some u := List.getLast?_concat ds
  have hdrop : (ds ++ [u]).dropLast = ds := List.dropLast_concat
  have hparse := parseIntLeading_digits ds hne hdig
  refine ⟨?_, ?_, ?_, ?_, ?_⟩
  · intro hm
    unfold getTimeframeInSeconds
    simp [hlast, hdrop, hparse, hm]
  · intro hh
    unfold getTimeframeInSeconds
    simp [hlast, hdrop, hparse, hh]
  · intro hd
    unfold getTimeframeInSeconds
    simp [hlast, hdrop, hparse, hd]
  · intro hm hh hd
    unfold getTimeframeInSeconds
    simp [hlast, hdrop, hm, hh, hd]
  · rfl

/-- Witness for C6 at concrete labels `"15m"`, `"2H"`, `"3d"`, `"7x"`. -/
theorem c6_timeframe_seconds_witness :
    getTimeframeInSeconds ("15m".data) = some 900 ∧
    getTimeframeInSeconds ("2H".data) = some 7200 ∧
    getTimeframeInSeconds ("3d".data) = some 259200 ∧
    getTimeframeInSeconds ("7x".data) = some 60 := by
  refine ⟨?_, ?_, ?_, ?_⟩
  · have h := (c6_timeframe_seconds ['1', '5'] 'm' (by decide) (by decide)).1
      (by decide)
    simpa using h
  · have h := (c6_timeframe_seconds ['2'] 'H' (by decide) (by decide)).2.1
      (by decide)
    simpa using h
  · have h := (c6_timeframe_seconds ['3'] 'd' (by decide)
      (by decide)).2.2.1 (by decide)
    simpa using h
  · have h := (c6_timeframe_seconds ['7'] 'x' (by decide)
      (by decide)).2.2.2.1 (by decide) (by decide) (by decide)
    simpa using h

/-- Helper: the rolling-mean series is empty on inputs shorter than the
period. -/
theorem smaSeries_of_short {period : Nat} {values : List ℚ}
    (h : values.length < period) : smaSeries period values = [] := by
  unfold smaSeries
  have h0 : values.length + 1 - period = 0 := by omega
  rw [h0, List.range_zero, List.map_nil]

/-- Helper: the Bollinger series is empty on inputs shorter than the
period. -/
theorem bollSeries_of_short {period : Nat} {sd : ℚ} {values : List ℚ}
    (h : values.length < period) : bollSeries period sd values = [] := by
  unfold bollSeries
  have h0 : values.length + 1 - period = 0 := by omega
  rw [h0, List.range_zero, List.map_nil]

/-- Helper: the EMA series is empty on inputs shorter than the period. -/
theorem emaSeries_of_short {period : Nat} {values : List ℚ}
    (h : values.length < period) : emaSeries period values = [] := by
  unfold emaSeries
  rw [if_pos h]

/-- Helper: the RSI series is empty when fewer than `period` changes
exist. -/
theorem rsiSeries_of_short {period : Nat} {values : List ℚ}
    (hp : 0 < period) (h : values.length < period + 1) :
    rsiSeries period values = [] := by
  unfold rsiSeries
  have hlen : ((values.zip (values.drop 1)).map (fun p => p.2 - p.1)).length
      < period := by
    rw [List.length_map, List.length_zip, List.length_drop]
    omega
  rw [if_pos hlen]

/-- Helper: the MACD series is empty when the slow EMA has no output. -/
theorem macdSeries_of_short {fast slow signalPeriod : Nat} {values : List ℚ}
    (h : values.length < slow) :
    macdSeries fast slow signalPeriod values = [] := by
  unfold macdSeries
  rw [emaSeries_of_short h]
  simp

/-- C5: on a candle sequence shorter than an indicator's minimum period
the indicator computation returns an empty series for that indicator —
for the `part_000` revision (SMA(50) needs 50 closes, Bollinger(20) needs
20) and for the `server.js` revision (SMA(50): 50, RSI(14): 15,
MACD(12,26,9): 26, Bollinger(20): 20).  Both embeddings are total Lean
functions, so no input makes them throw. -/
theorem c5_short_input_empty_series (candles : List Candle) :
    (candles.length < 50 →
      (calculateIndicators000 candles).sma50 = [] ∧
      (calculateIndicators000 candles).bollingerBands = []) ∧
    (candles.length < 20 →
      (calculateIndicators000 candles).bollingerBands = []) ∧
    (candles.length < 50 → (calculateIndicators candles).sma50 = []) ∧
    (candles.length < 15 → (calculateIndicators candles).rsi = []) ∧
    (candles.length < 26 → (calculateIndicators candles).macd = []) ∧
    (candles.length < 20 →
      (calculateIndicators candles).bollingerBands = []) := by
  have hmaplen : (candles.map (·.close)).length = candles.length :=
    List.length_map _ _
  refine ⟨?_, ?_, ?_, ?_, ?_, ?_⟩
  · intro h
    unfold calculateIndicators000
    rw [if_pos (by rw [hmaplen]; exact h)]
    exact ⟨rfl, rfl⟩
  · intro h
    unfold calculateIndicators000
    rw [if_pos (by rw [hmaplen]; omega)]
  · intro h
    unfold calculateIndicators
    exact smaSeries_of_short (by rw [hmaplen]; exact h)
  · intro h
    unfold calculateIndicators
    exact rsiSeries_of_short (by norm_num) (by rw [hmaplen]; omega)
  · intro h
    unfold calculateIndicators
    exact macdSeries_of_short (by rw [hmaplen]; exact h)
  · intro h
    unfold calculateIndicators
    exact bollSeries_of_short (by rw [hmaplen]; exact h)

/-- Witness for C5 on concrete short inputs. -/
theorem c5_short_input_empty_series_witness :
    ((calculateIndicators000 c8Candles).sma50 = [] ∧
      (calculateIndicators000 c8Candles).bollingerBands = []) ∧
    (calculateIndicators c8Candles).rsi = [] ∧
    (calculateIndicators c8Candles).macd = [] := by
  refine ⟨(c5_short_input_empty_series c8Candles).1 (by decide), ?_, ?_⟩
  · exact (c5_short_input_empty_series c8Candles).2.2.2.1 (by decide)
  · exact (c5_short_input_empty_series c8Candles).2.2.2.2.1 (by decide)

/-- C8: `calculateSMA` keeps one output entry per input candle with the
candle fields unchanged; from index `period - 1` on, the entry carries
the rounded mean of the closes at indices `i - period + 1 … i`, and
every earlier entry carries the explicit `null` marker. -/
theorem c8_calculateSMA_alignment (candles : List Candle) (period : Nat)
    (hp : 0 < period) :
    (calculateSMA candles period).length = candles.length ∧
    ∀ i c, candles[i]? = some c →
      (period - 1 ≤ i →
        (calculateSMA candles period)[i]? =
          some ⟨c.epoch, c.open_, c.high, c.low, c.close,
            some (round4
              ((((candles.drop (i + 1 - period)).take period).map
                  (·.close)).sum / (period : ℚ)))⟩) ∧
      (i < period - 1 →
        (calculateSMA candles period)[i]? =
          some ⟨c.epoch, c.open_, c.high, c.low, c.close, none⟩) := by
  constructor
  · exact List.length_mapIdx
  · intro i c hc
    constructor
    · intro hle
      have hwin : (i + 1) - (i + 1 - period) = period := by omega
      unfold calculateSMA
      rw [List.getElem?_mapIdx, hc]
      simp only [Option.map_some']
      rw [if_pos hle, hwin]
    · intro hlt
      have hn : ¬(period - 1 ≤ i) := by omega
      unfold calculateSMA
      rw [List.getElem?_mapIdx, hc]
      simp only [Option.map_some']
      rw [if_neg hn]

/-- Witness for C8 on a three-candle fixture with period 2. -/
theorem c8_calculateSMA_alignment_witness :
    (calculateSMA c8Candles 2).length = 3 ∧
    (calculateSMA c8Candles 2)[0]? =
      some ⟨1, 1, 2, 0, 1, none⟩ ∧
    (calculateSMA c8Candles 2)[2]? =
      some ⟨3, 2, 5, 2, 4, some (3 : ℚ)⟩ := by
  have h := c8_calculateSMA_alignment c8Candles 2 (by decide)
  refine ⟨h.1, ?_, ?_⟩
  · have h0 := (h.2 0 ⟨1, 1, 2, 0, 1⟩ (by decide)).2 (by decide)
    simpa using h0
  · have h2 := (h.2 2 ⟨3, 2, 5, 2, 4⟩ (by decide)).1 (by decide)
    rw [h2]
    norm_num [c8Candles, round4]

/-- C4 counterexample: the `server.js` revision resolves an out-of-order
wire batch exactly as delivered, so the sequence handed to the rest of
the pipeline is not sorted by timestamp. -/
theorem c4_wire_order_counterexample :
    getMarketDataCandles c4Wire = .ok c4Wire ∧
    ¬ List.Sorted (fun a b => a.epoch ≤ b.epoch) c4Wire := by
  constructor
  · rfl
  · intro h
    have h2 := List.rel_of_sorted_cons h ⟨1, 1, 1, 1, 1⟩ (by simp [c4Wire])
    simp at h2

/-- C4 amended: only the `part_000` revision sorts the fetched candles
non-decreasing by timestamp before the pipeline continues; the
`server.js` revision resolves any nonempty batch in wire order,
unchanged. -/
theorem c4_sorting_amended :
    (∀ raw : List Candle,
      List.Sorted (fun a b => a.epoch ≤ b.epoch) (getCandleDataCandles raw)) ∧
    (∀ candles : List Candle, candles ≠ [] →
      getMarketDataCandles candles = .ok candles) := by
  constructor
  · intro raw
    exact List.sorted_insertionSort _ _
  · intro candles hne
    unfold getMarketDataCandles
    rw [if_pos (by simpa [List.length_pos] using hne)]

/-- Witness for C4 amended at concrete inputs. -/
theorem c4_sorting_amended_witness :
    List.Sorted (fun a b : Candle => a.epoch ≤ b.epoch)
      (getCandleDataCandles c4Wire) ∧
    getMarketDataCandles c4Wire = .ok c4Wire :=
  ⟨c4_sorting_amended.1 c4Wire, c4_sorting_amended.2 c4Wire (by decide)⟩

/-- C1: evaluation of the two client SMA-overlay pairings on a
two-candle timeline (times 10 and 20) with a one-entry SMA series `[5]`:
the `script.js:199-209` revision attaches the value to the candle at
time 10 (raw shared index 0), while the `script.js:434-443` revision
attaches it to the candle at time 20 (tail offset `N - M = 1`), which is
what the alignment law requires. -/
theorem c1_raw_index_misalignment_eval :
    smaOverlayRawIndex c1Candles c1Sma = [(10, 5)] ∧
    smaOverlayTailAligned c1Candles c1Sma = [(20, 5)] := by
  constructor <;> rfl

/-- Helper: `jsIndexOf` at the first occurrence of a character. -/
theorem jsIndexOf_first {s : List Char} {c : Char} {i : Nat}
    (h1 : s[i]? = some c) (h2 : ∀ k, k < i → s[k]? ≠ some c) :
    jsIndexOf s c = (i : Int) := by
  have hi : i < s.length := by
    by_contra hni
    rw [List.getElem?_eq_none (by omega)] at h1
    exact Option.noConfusion h1
  have hgi : s[i] = c := by
    rw [List.getElem?_eq_getElem hi] at h1
    exact Option.some.inj h1
  have hfi : s.findIdx? (· = c) = some i := by
    rw [List.findIdx?_eq_some_iff_getElem]
    refine ⟨hi, by simp [hgi], ?_⟩
    intro j hj
    have hjl : j < s.length := by omega
    have hne := h2 j hj
    rw [List.getElem?_eq_getElem hjl] at hne
    simp only [decide_eq_true_eq]
    intro hEq
    exact hne (by rw [hEq])
  unfold jsIndexOf
  rw [hfi]

/-- Helper: `jsLastIndexOf` at the last occurrence of a character. -/
theorem jsLastIndexOf_last {s : List Char} {c : Char} {j : Nat}
    (h1 : s[j]? = some c)
    (h2 : ∀ k, k < s.length → j < k → s[k]? ≠ some c) :
    jsLastIndexOf s c = (j : Int) := by
  have hj : j < s.length := by
    by_contra hni
    rw [List.getElem?_eq_none (by omega)] at h1
    exact Option.noConfusion h1
  have hgj : s[j] = c := by
    rw [List.getElem?_eq_getElem hj] at h1
    exact Option.some.inj h1
  have hrev : s.reverse.findIdx? (· = c) = some (s.length - 1 - j) := by
    rw [List.findIdx?_eq_some_iff_getElem]
    have hlt : s.length - 1 - j < s.reverse.length := by
      rw [List.length_reverse]; omega
    refine ⟨hlt, ?_, ?_⟩
    · rw [List.getElem_reverse]
      have harith : s.length - 1 - (s.length - 1 - j) = j := by omega
      simp only [harith]
      simp [hgj]
    · intro k hk
      have hkr : k < s.reverse.length := by omega
      rw [List.getElem_reverse]
      have hlen : s.length - 1 - k < s.length := by
        rw [List.length_reverse] at hkr; omega
      have hgt : j < s.length - 1 - k := by
        rw [List.length_reverse] at hkr; omega
      have hne := h2 _ hlen hgt
      rw [List.getElem?_eq_getElem hlen] at hne
      simp only [decide_eq_true_eq]
      intro hEq
      exact hne (by rw [hEq])
  unfold jsLastIndexOf
  rw [hrev]
  simp only
  omega

/-- Helper: `jsSubstring` on in-range, ordered indices is drop-then-take. -/
theorem jsSubstring_of_le {s : List Char} {i j : Nat}
    (hij : i ≤ j) (hj : j ≤ s.length) :
    jsSubstring s (i : Int) (j : Int) = (s.drop i).take (j - i) := by
  unfold jsSubstring
  have ha : ((min (max (i : Int) 0) ((s.length : Nat) : Int)).toNat) = i := by
    omega
  have hb : ((min (max (j : Int) 0) ((s.length : Nat) : Int)).toNat) = j := by
    omega
  simp only [ha, hb, Nat.min_eq_left hij, Nat.max_eq_right hij]

/-- C2 counterexample: an LLM reply holding a fenced `json` block followed
by prose with further braces; the spec-side first-fenced-block interior
and the code's candidate differ, because the code takes the substring
from the first `{` to the last `}` with no fenced-block step. -/
theorem c2_fenced_block_counterexample :
    specFencedInterior c2Text = some ("\x7ba: 1\x7d\n".data) ∧
    extractCandidate c2Text = some ("\x7ba: 1\x7d\n```\nmore \x7bb: 2\x7d".data) ∧
    ("\x7ba: 1\x7d\n".data : List Char) ≠
      "\x7ba: 1\x7d\n```\nmore \x7bb: 2\x7d".data := by
  exact ⟨rfl, rfl, by decide⟩

/-- C2 amended: the extractor has no fenced-block step; for every reply
text, the candidate is the substring from the first `{` to the last `}`
inclusive (when the first `{` does not come after the last `}`), and a
reply with no `{` at all is reported as having no JSON region. -/
theorem c2_brace_heuristic_amended :
    (∀ (s : List Char) (i j : Nat),
      s[i]? = some braceOpen →
      (∀ k, k < i → s[k]? ≠ some braceOpen) →
      s[j]? = some braceClose →
      (∀ k, k < s.length → j < k → s[k]? ≠ some braceClose) →
      i ≤ j →
      extractCandidate s = some ((s.drop i).take (j + 1 - i))) ∧
    (∀ s : List Char, braceOpen ∉ s →
      extractAnalysis s = .error .noRegion) := by
  constructor
  · intro s i j h1 h2 h3 h4 hij
    have hj : j < s.length := by
      by_contra hni
      rw [List.getElem?_eq_none (by omega)] at h3
      exact Option.noConfusion h3
    have hio := jsIndexOf_first h1 h2
    have hjo := jsLastIndexOf_last h3 h4
    show (if jsIndexOf s braceOpen = -1 ∨ jsLastIndexOf s braceClose = -1
      then none
      else some (jsSubstring s (jsIndexOf s braceOpen)
        (jsLastIndexOf s braceClose + 1))) = _
    rw [hio, hjo]
    rw [if_neg (by push_cast; rintro (h | h) <;> exact h.elim)]
    have hcast : ((j : Int) + 1) = (((j + 1 : Nat) : Nat) : Int) := by
      push_cast; ring
    rw [hcast, jsSubstring_of_le (by omega) (by omega)]
  · intro s hno
    have hfi : s.findIdx? (· = braceOpen) = none := by
      rw [List.findIdx?_eq_none_iff]
      intro x hx
      show decide (x = braceOpen) = false
      exact decide_eq_false (fun hEq => hno (hEq ▸ hx))
    have hcand : extractCandidate s = none := by
      unfold extractCandidate jsIndexOf
      rw [hfi]
      show (if (-1 : Int) = -1 ∨ jsLastIndexOf s braceClose = -1 then none
        else some (jsSubstring s (-1) (jsLastIndexOf s braceClose + 1))) = none
      rw [if_pos (Or.inl rfl)]
    unfold extractAnalysis
    rw [hcand]

/-- Witness for C2 amended at concrete replies. -/
theorem c2_brace_heuristic_amended_witness :
    extractCandidate ("a\x7bx\x7db".data) = some ("\x7bx\x7d".data) ∧
    extractAnalysis ("no json here at all".data) = .error .noRegion := by
  constructor
  · have h := c2_brace_heuristic_amended.1 ("a\x7bx\x7db".data) 1 3
      (by decide) (by decide) (by decide) (by decide) (by decide)
    simpa using h
  · exact c2_brace_heuristic_amended.2 ("no json here at all".data) (by decide)

/-- C3 counterexample: a reply whose brace region parses to an object
with `stopLoss` only is returned as a successful analysis even though
`entryPoint` (and `takeProfit`) are missing — no required-key validation
exists in any revision. -/
theorem c3_missing_key_counterexample :
    extractAnalysis c3Text = .ok (Json.obj [("stopLoss".data, Json.num 1)]) ∧
    (Json.obj [("stopLoss".data, Json.num 1)]).getKey? ("entryPoint".data) =
      none := by
  exact ⟨rfl, rfl⟩

/-- C3 amended: extraction distinguishes exactly two failure modes — no
brace region found, and region found but unparseable — and any value the
region parses to is returned as the analysis, with no required-key or
numeric validation. -/
theorem c3_two_failure_modes_amended :
    (∀ s : List Char, extractCandidate s = none →
      extractAnalysis s = .error .noRegion) ∧
    (∀ (s cand : List Char), extractCandidate s = some cand →
      jsonParse cand = none → extractAnalysis s = .error .parseFailed) ∧
    (∀ (s cand : List Char) (v : Json), extractCandidate s = some cand →
      jsonParse cand = some v → extractAnalysis s = .ok v) := by
  refine ⟨?_, ?_, ?_⟩
  · intro s hc
    unfold extractAnalysis
    rw [hc]
  · intro s cand hc hp
    unfold extractAnalysis
    rw [hc]
    show (match jsonParse cand with
      | some v => Except.ok v
      | none => Except.error ExtractErr.parseFailed) = _
    rw [hp]
  · intro s cand v hc hp
    unfold extractAnalysis
    rw [hc]
    show (match jsonParse cand with
      | some v => Except.ok v
      | none => Except.error ExtractErr.parseFailed) = _
    rw [hp]

/-- Witness for C3 amended: the three outcomes at concrete replies. -/
theorem c3_two_failure_modes_amended_witness :
    extractAnalysis c3NoRegionText = .error .noRegion ∧
    extractAnalysis c3MalformedText = .error .parseFailed ∧
    extractAnalysis c3Text = .ok (Json.obj [("stopLoss".data, Json.num 1)]) := by
  refine ⟨?_, ?_, ?_⟩
  · exact c3_two_failure_modes_amended.1 c3NoRegionText rfl
  · exact c3_two_failure_modes_amended.2.1 c3MalformedText c3MalformedText
      rfl rfl
  · exact c3_two_failure_modes_amended.2.2 c3Text
      ("\x7b\"stopLoss\":1.0\x7d".data)
      (Json.obj [("stopLoss".data, Json.num 1)]) rfl rfl

/-- Helper: the length of a JS `slice(-n)` tail. -/
theorem jsSliceLast_length (n : Nat) (l : List α) :
    (jsSliceLast n l).length = min n l.length := by
  unfold jsSliceLast
  rw [List.length_drop]
  omega

/-- C7: in the `unnamed/part_000` revision, a request with `asset`
present but `timeframe` missing throws a `TypeError` out of
`getTimeframeInSeconds` (evaluated before the guard) instead of being
rejected with 400, while the `server.js` revision rejects the same
request with 400; a request missing only `asset` is still rejected with
400 by both. -/
theorem c7_missing_timeframe_throws_before_guard :
    analyzeStart000 (some ("R_100".data)) none =
      .thrown ("TypeError: cannot read slice of undefined".data) ∧
    analyzeStart000 (some ("R_100".data)) none ≠ .badRequest ∧
    analyzeStartServer (some ("R_100".data)) none = .badRequest ∧
    analyzeStart000 none (some ("1m".data)) = .badRequest ∧
    analyzeStartServer none (some ("1m".data)) = .badRequest := by
  refine ⟨rfl, by decide, by decide, by decide, by decide⟩

/-- C9: a Finnhub economic-calendar failure never fails the analysis
request by itself — `getEconomicEvents` resolves with the empty event
list on any error, the prompt is then built with no events, and the
handler outcome is exactly that of a run whose calendar returned no
events. -/
theorem c9_calendar_failure_resolves_empty :
    (∀ msg : List Char, getEconomicEvents (.error msg) = []) ∧
    (∀ (asset timeframe : List Char) (candles : List Candle)
        (indicators : ServerIndicators) (msg : List Char),
      buildPromptData asset timeframe candles indicators
          (getEconomicEvents (.error msg)) =
        buildPromptData asset timeframe candles indicators []) ∧
    (∀ (asset timeframe : List Char) (candles : List Candle)
        (msg responseText : List Char),
      analyzeHandler asset timeframe candles (.error msg) responseText =
        analyzeHandler asset timeframe candles (.ok []) responseText) := by
  refine ⟨fun msg => rfl, fun a t cs inds msg => rfl, fun a t cs msg r => rfl⟩

/-- C10: whenever the handler succeeds, the response's
`marketData.candles` holds exactly one entry per fetched candle, in
order, with `time` equal to the candle's epoch and the four prices
unchanged — the full fetched list, even though the prompt embeds only
the last `min 50 N` candles. -/
theorem c10_full_candles_returned (asset timeframe : List Char)
    (candles : List Candle)
    (eventsResult : Except (List Char) (List EconEvent))
    (responseText : List Char) (resp : AnalyzeOut)
    (h : analyzeHandler asset timeframe candles eventsResult responseText =
      .ok resp) :
    resp.marketData.candles.length = candles.length ∧
    (∀ (i : Nat) (c : Candle), candles[i]? = some c →
      resp.marketData.candles[i]? =
        some (ChartCandle.mk c.epoch c.open_ c.high c.low c.close)) ∧
    (buildPromptData asset timeframe candles (calculateIndicators candles)
        (getEconomicEvents eventsResult)).recentCandles.length =
      min 50 candles.length := by
  have h' : (match jsonParse (jsSubstring responseText
        (jsIndexOf responseText braceOpen)
        (jsLastIndexOf responseText braceClose + 1)) with
      | none => (Except.error ExtractErr.parseFailed :
          Except ExtractErr AnalyzeOut)
      | some analysis =>
        Except.ok ⟨analysis,
          ⟨candles.map
              (fun (c : Candle) =>
                ChartCandle.mk c.epoch c.open_ c.high c.low c.close),
            (calculateIndicators candles).sma50,
            (calculateIndicators candles).bollingerBands⟩⟩) = .ok resp := h
  cases hp : jsonParse (jsSubstring responseText
      (jsIndexOf responseText braceOpen)
      (jsLastIndexOf responseText braceClose + 1)) with
  | none =>
    rw [hp] at h'
    simp at h'
  | some analysis =>
    rw [hp] at h'
    have hre := Except.ok.inj h'
    subst hre
    refine ⟨List.length_map _ _, ?_, ?_⟩
    · intro i c hc
      show (candles.map
        (fun (c : Candle) =>
          ChartCandle.mk c.epoch c.open_ c.high c.low c.close))[i]? = _
      rw [List.getElem?_map, hc]
      rfl
    · show ((jsSliceLast 50 candles).map
        (fun c => RecentCandle.mk c.open_ c.high c.low c.close c.epoch)).length
          = _
      rw [List.length_map, jsSliceLast_length]

/-- Witness for C10 on a concrete two-candle run with a well-formed
reply. -/
theorem c10_full_candles_returned_witness :
    c10Resp.marketData.candles.length = c10Candles.length ∧
    c10Resp.marketData.candles[1]? = some ⟨2, 1, 3, 1, 2⟩ := by
  have h := c10_full_candles_returned ("R_100".data) ("1m".data) c10Candles
    (.ok []) c10Reply c10Resp rfl
  refine ⟨h.1, ?_⟩
  have h2 := h.2.1 1 ⟨2, 1, 3, 1, 2⟩ rfl
  exact h2

end Aifx
